import Mathlib

/-!
Shallow embedding of `src/recursive-vt.py`.

Conventions used throughout this development:

* File contents are byte lists (`List Nat`); the SHA-256 function of the
  source (`hashlib.sha256(...).hexdigest()`) is an abstract parameter
  `sha256 : List Nat → String`, and the filesystem is a map
  `fs : String → List Nat` from a path to the bytes stored there.
* Python exceptions are modelled explicitly: `add_virustotal_result`
  returns the updated entity together with a `Bool` that is `true`
  exactly when the Python code would raise (`KeyError` on a missing
  JSON field), and `is_malicious` returns `none` exactly when the
  Python code would raise `ZeroDivisionError`.
* The Python `dict` (insertion ordered, unique keys) is modelled as an
  association list; `dict.get` is `dict_get`, in-place mutation of the
  entity found under a key is `dict_set_existing`, and `dict.update`
  with a fresh key appends the new pair at the end.
* The `print` calls of the source are pure output and are not modelled.
-/

/-- simpleFile (source lines 9-29): a path together with the digest of the
bytes stored at that path. -/
structure simpleFile where
  file_name : String
  hash : String
deriving DecidableEq

/-- simpleFile.calculate_hash (lines 12-19): the file is read in 4096-byte
blocks, each fed to a single SHA-256 state, so the digest is the digest of
the full byte content; with the hash function abstract this is `sha256`
applied to the content. -/
def calculate_hash (sha256 : List Nat → String) (content : List Nat) : String :=
  sha256 content

/-- simpleFile.__init__ (lines 21-23). -/
def mk_simpleFile (sha256 : List Nat → String) (fs : String → List Nat)
    (file_name : String) : simpleFile :=
  { file_name := file_name, hash := calculate_hash sha256 (fs file_name) }

/-- simpleFile.get_hash (lines 25-26). -/
def simpleFile.get_hash (f : simpleFile) : String := f.hash

/-- simpleFile.get_file_name (lines 28-29). -/
def simpleFile.get_file_name (f : simpleFile) : String := f.file_name

/-- Shape of the JSON dictionary `result['results']` as accessed by the
source (lines 61-65); a field is `none` when the key is absent, in which
case the Python subscript raises `KeyError`. -/
structure vtResults where
  response_code : Option Int
  total : Option Nat
  positives : Option Nat
  scan_date : Option String
deriving DecidableEq

/-- Shape of the dictionary returned by `vt.get_file_report` as accessed
by the source: `results` is `none` when the key `'results'` is absent
(for instance when the client library returned an error dictionary). -/
structure vtResponse where
  results : Option vtResults
deriving DecidableEq

/-- observedEntity (lines 31-84): one unique digest, the file names sharing
it, and the VirusTotal data recorded for it. -/
structure observedEntity where
  files : List String
  hash : String
  isMalicious : Bool
  vt_result : Option vtResponse
  positives : Nat
  total_scanners : Nat
  scan_date : Option String
deriving DecidableEq

/-- observedEntity.__init__ (lines 34-41).  `vt_result` starts as the empty
string and `scan_date` is only created by `add_virustotal_result`; both are
modelled as `Option`s starting at `none`.  `total_scanners` starts at `1`
"to avoid division by zero error". -/
def observedEntity.init (file : simpleFile) : observedEntity :=
  { files := [file.get_file_name]
    hash := file.get_hash
    isMalicious := false
    vt_result := none
    positives := 0
    total_scanners := 1
    scan_date := none }

/-- observedEntity.add_file_name (lines 43-46): `self.files.append(file_name)`. -/
def observedEntity.add_file_name (e : observedEntity) (file_name : String) :
    observedEntity :=
  { e with files := e.files ++ [file_name] }

/-- observedEntity.get_file_names (lines 48-50). -/
def observedEntity.get_file_names (e : observedEntity) : List String := e.files

/-- observedEntity.get_hash (lines 52-54). -/
def observedEntity.get_hash (e : observedEntity) : String := e.hash

/-- observedEntity.add_virustotal_result (lines 56-65).  The raw result is
stored first; then `result['results']['response_code']` is read, and on a
successful lookup (`response_code == 1`) the scanner counts and the scan
date are taken from the response.  The returned `Bool` is `true` exactly
when Python raises `KeyError` (a subscripted key is absent); field updates
performed before the raising subscript are kept, as in Python. -/
def observedEntity.add_virustotal_result (e : observedEntity)
    (result : vtResponse) : observedEntity × Bool :=
  let e1 := { e with vt_result := some result }
  match result.results with
  | none => (e1, true)
  | some res =>
    match res.response_code with
    | none => (e1, true)
    | some rc =>
      if rc = 1 then
        match res.total with
        | none => (e1, true)
        | some t =>
          let e2 := { e1 with total_scanners := t }
          match res.positives with
          | none => (e2, true)
          | some p =>
            let e3 := { e2 with positives := p }
            match res.scan_date with
            | none => (e3, true)
            | some d => ({ e3 with scan_date := some d }, false)
      else (e1, false)

/-- observedEntity.get_virustotal_result (lines 67-68). -/
def observedEntity.get_virustotal_result (e : observedEntity) :
    Option vtResponse :=
  e.vt_result

/-- observedEntity.count_total_scanners (lines 78-80). -/
def observedEntity.count_total_scanners (e : observedEntity) : Nat :=
  e.total_scanners

/-- observedEntity.count_alerting_scanners (lines 82-84). -/
def observedEntity.count_alerting_scanners (e : observedEntity) : Nat :=
  e.positives

/-- observedEntity.is_malicious (lines 70-76): the entity is deemed
potentially malicious when at least 10 percent (the literal `0.1`) of the
scanners alerted.  The Python division is real-valued and is modelled over
`ℚ`; `none` models the `ZeroDivisionError` raised when
`count_total_scanners()` is `0`.  The debug `print` of the ratio is not
modelled. -/
def observedEntity.is_malicious (e : observedEntity) : Option Bool :=
  if e.count_total_scanners = 0 then none
  else
    some (decide ((1 : ℚ) / 10 ≤
      (e.count_alerting_scanners : ℚ) / (e.count_total_scanners : ℚ)))

/-- Whether `add_virustotal_result` raises a `KeyError` on `result`; the
outcome depends only on the response. -/
def respRaises (result : vtResponse) : Bool :=
  match result.results with
  | none => true
  | some res =>
    match res.response_code with
    | none => true
    | some rc =>
      if rc = 1 then
        res.total.isNone || res.positives.isNone || res.scan_date.isNone
      else false

/-- entityHandler (lines 88-125): the registry, a Python dict from digest
to entity, modelled as an insertion-ordered association list. -/
structure entityHandler where
  hash_dict : List (String × observedEntity)
deriving DecidableEq

/-- entityHandler.__init__ (lines 92-93): `self.hash_dict = {}`. -/
def entityHandler.init : entityHandler := { hash_dict := [] }

/-- Python `dict.get` on the association list. -/
def dict_get : List (String × observedEntity) → String → Option observedEntity
  | [], _ => none
  | kv :: rest, k => if kv.1 = k then some kv.2 else dict_get rest k

/-- In-place mutation of the entity stored under key `k`: the source calls
`existing_duplicates.add_file_name(...)` on the object returned by
`dict.get`, mutating the entry in place (keys are unique in a Python dict,
so at most one entry matches). -/
def dict_set_existing (d : List (String × observedEntity)) (k : String)
    (f : observedEntity → observedEntity) : List (String × observedEntity) :=
  d.map fun kv => if kv.1 = k then (kv.1, f kv.2) else kv

/-- entityHandler.add_file (lines 95-104): hash the file; if the digest is
already registered, append the file name to the existing entity, otherwise
`dict.update` inserts a new entity at the end. -/
def entityHandler.add_file (sha256 : List Nat → String) (fs : String → List Nat)
    (h : entityHandler) (file : String) : entityHandler :=
  let new_file := mk_simpleFile sha256 fs file
  match dict_get h.hash_dict new_file.get_hash with
  | some _ =>
    { hash_dict := dict_set_existing h.hash_dict new_file.get_hash
        (fun e => e.add_file_name new_file.get_file_name) }
  | none =>
    { hash_dict :=
        h.hash_dict ++ [(new_file.get_hash, observedEntity.init new_file)] }

/-- entityHandler.get_entities (lines 106-108): `self.hash_dict.items()`. -/
def entityHandler.get_entities (h : entityHandler) :
    List (String × observedEntity) :=
  h.hash_dict

/-- entityHandler.count_entities (lines 110-112): `len(self.hash_dict)`. -/
def entityHandler.count_entities (h : entityHandler) : Nat :=
  h.hash_dict.length

/-- Digests currently registered, in insertion order. -/
def entityHandler.keys (h : entityHandler) : List String :=
  h.hash_dict.map Prod.fst

/-- Loop of `retrieve_virustotal_results` (lines 123-125): for each entry
in order, issue the query (`vt.get_file_report(hash)`), record the result,
then `time.sleep(waiting_time)`.  Returns the updated entries, the digests
queried, the sleeps performed, and whether a `KeyError` aborted the loop
(a raising `add_virustotal_result` propagates: later entities are neither
queried nor updated, and the sleep of the raising iteration is skipped). -/
def retrieve_go (vt : String → vtResponse) (waiting_time : Nat) :
    List (String × observedEntity) →
      List (String × observedEntity) × List String × List Nat × Bool
  | [] => ([], [], [], false)
  | (k, e) :: rest =>
    match e.add_virustotal_result (vt k) with
    | (e1, true) => ((k, e1) :: rest, [k], [], true)
    | (e1, false) =>
      let r := retrieve_go vt waiting_time rest
      ((k, e1) :: r.1, k :: r.2.1, waiting_time :: r.2.2.1, r.2.2.2)

/-- entityHandler.retrieve_virustotal_results (lines 114-125).  The waiting
time is `0` seconds when at most 4 entities are registered and `15` seconds
otherwise (line 118 reads the module-level `entity_handler`, which is this
same handler in the program run).  `vt` models `vt.get_file_report`. -/
def entityHandler.retrieve_virustotal_results (vt : String → vtResponse)
    (h : entityHandler) : entityHandler × List String × List Nat × Bool :=
  let waiting_time := if h.count_entities ≤ 4 then 0 else 15
  let r := retrieve_go vt waiting_time h.hash_dict
  ({ hash_dict := r.1 }, r.2)

/-- Registration phase of the program (lines 143-146): every enumerated
regular file is registered in order. -/
def entityHandler.addFiles (sha256 : List Nat → String) (fs : String → List Nat)
    (h : entityHandler) (files : List String) : entityHandler :=
  files.foldl (fun acc p => acc.add_file sha256 fs p) h

/-- Registry invariant: keys are unique (a Python dict), each entity is
stored under its own digest, and every file path recorded in an entity
hashes to that digest. -/
def entityHandler.Inv (sha256 : List Nat → String) (fs : String → List Nat)
    (h : entityHandler) : Prop :=
  h.keys.Nodup ∧
    ∀ kv ∈ h.hash_dict, kv.2.hash = kv.1 ∧ ∀ p ∈ kv.2.files, sha256 (fs p) = kv.1

/-! Concrete data used to exercise the definitions on closed inputs. -/

/-- Sample file record. -/
def fileA : simpleFile := { file_name := "a", hash := "h" }

/-- Sample entity with one alerting scanner out of ten. -/
def entC2 : observedEntity :=
  { files := ["a"], hash := "h", isMalicious := false, vt_result := none,
    positives := 1, total_scanners := 10, scan_date := none }

/-- Response with a successful lookup code whose reported scanner total is
zero. -/
def zeroTotalResp : vtResponse :=
  { results := some
      { response_code := some 1
        total := some 0
        positives := some 0
        scan_date := some "2020-01-01 00:00:00" } }

/-- Response lacking the `results` structure, as the VirusTotal client
library produces on a transport error. -/
def noResultsResp : vtResponse := { results := none }

/-- Response with an unknown-hash code (`response_code` equal to `0`). -/
def unknownResp : vtResponse :=
  { results := some
      { response_code := some 0
        total := none
        positives := none
        scan_date := none } }

/-- Response with a successful lookup code carrying the given scanner
total, positive count and scan date. -/
def successResp (t p : Nat) (d : String) : vtResponse :=
  { results := some
      { response_code := some 1
        total := some t
        positives := some p
        scan_date := some d } }

/-- Fresh entity registered under the digest `n`. -/
def entFor (n : String) : observedEntity :=
  { files := [n], hash := n, isMalicious := false, vt_result := none,
    positives := 0, total_scanners := 1, scan_date := none }

/-- Handler holding five distinct digests. -/
def handler5 : entityHandler :=
  { hash_dict := [("h1", entFor "h1"), ("h2", entFor "h2"), ("h3", entFor "h3"),
      ("h4", entFor "h4"), ("h5", entFor "h5")] }

/-- Handler holding a single digest. -/
def handler1 : entityHandler := { hash_dict := [("h", entFor "h")] }

/-- Reputation service answering every query with the unknown-hash
response. -/
def benignVt : String → vtResponse := fun _ => unknownResp

/-- Sample hash function for closed instances. -/
def shaW : List Nat → String := fun b => String.join ((b.map toString).map (fun s => s ++ ","))

/-- Sample filesystem for closed instances: the byte stored at a path is
the length of the path. -/
def fsW : String → List Nat := fun p => [p.length]

/-! Helper lemmas about the dictionary model. -/

theorem dict_get_eq_none_iff (d : List (String × observedEntity)) (k : String) :
    dict_get d k = none ↔ k ∉ d.map Prod.fst := by
  induction d with
  | nil => simp [dict_get]
  | cons kv rest ih =>
    by_cases hk : kv.1 = k
    · simp [dict_get, hk]
    · simp [dict_get, hk, ih, Ne.symm hk]

theorem dict_get_mem {d : List (String × observedEntity)} {k : String}
    {e : observedEntity} (h : dict_get d k = some e) : (k, e) ∈ d := by
  induction d with
  | nil => simp [dict_get] at h
  | cons kv rest ih =>
    by_cases hk : kv.1 = k
    · simp [dict_get, hk] at h
      subst hk
      subst h
      simp
    · simp [dict_get, hk] at h
      exact List.mem_cons_of_mem _ (ih h)

theorem dict_get_mem_keys {d : List (String × observedEntity)} {k : String}
    {e : observedEntity} (h : dict_get d k = some e) : k ∈ d.map Prod.fst := by
  have := dict_get_mem h
  exact List.mem_map.2 ⟨(k, e), this, rfl⟩

theorem keys_dict_set (d : List (String × observedEntity)) (k : String)
    (f : observedEntity → observedEntity) :
    (dict_set_existing d k f).map Prod.fst = d.map Prod.fst := by
  induction d with
  | nil => rfl
  | cons kv rest ih =>
    by_cases hk : kv.1 = k
    · simp [dict_set_existing, hk] at ih ⊢
      exact ih
    · simp [dict_set_existing, hk] at ih ⊢
      exact ih

theorem dict_get_dict_set_self (d : List (String × observedEntity)) (k : String)
    (f : observedEntity → observedEntity) :
    dict_get (dict_set_existing d k f) k = (dict_get d k).map f := by
  induction d with
  | nil => rfl
  | cons kv rest ih =>
    by_cases hk : kv.1 = k
    · simp [dict_set_existing, dict_get, hk]
    · simp [dict_set_existing, dict_get, hk] at ih ⊢
      exact ih

theorem dict_get_dict_set_ne (d : List (String × observedEntity)) (k k2 : String)
    (f : observedEntity → observedEntity) (hne : k2 ≠ k) :
    dict_get (dict_set_existing d k f) k2 = dict_get d k2 := by
  induction d with
  | nil => rfl
  | cons kv rest ih =>
    simp only [dict_set_existing, List.map] at ih ⊢
    by_cases hk : kv.1 = k
    · have hk2 : ¬ kv.1 = k2 := fun hx => hne (hx.symm.trans hk)
      rw [if_pos hk]
      simp only [dict_get]
      rw [if_neg hk2, if_neg hk2]
      exact ih
    · rw [if_neg hk]
      simp only [dict_get]
      by_cases hk2 : kv.1 = k2
      · rw [if_pos hk2, if_pos hk2]
      · rw [if_neg hk2, if_neg hk2]
        exact ih

theorem dict_get_append_left {d1 : List (String × observedEntity)}
    (d2 : List (String × observedEntity)) {k : String} {e : observedEntity}
    (h : dict_get d1 k = some e) : dict_get (d1 ++ d2) k = some e := by
  induction d1 with
  | nil => simp [dict_get] at h
  | cons kv rest ih =>
    by_cases hk : kv.1 = k
    · simp [dict_get, hk] at h ⊢
      exact h
    · simp [dict_get, hk] at h ⊢
      exact ih h

theorem dict_get_append_right {d1 : List (String × observedEntity)}
    (d2 : List (String × observedEntity)) {k : String}
    (h : dict_get d1 k = none) : dict_get (d1 ++ d2) k = dict_get d2 k := by
  induction d1 with
  | nil => simp
  | cons kv rest ih =>
    by_cases hk : kv.1 = k
    · simp [dict_get, hk] at h
    · simp [dict_get, hk] at h ⊢
      exact ih h

/-! Helper lemmas about `add_file` and the registration phase. -/

section Registration

variable (sha256 : List Nat → String) (fs : String → List Nat)

theorem add_file_found {h : entityHandler} {p : String} {e : observedEntity}
    (hf : dict_get h.hash_dict (sha256 (fs p)) = some e) :
    (h.add_file sha256 fs p).hash_dict =
      dict_set_existing h.hash_dict (sha256 (fs p))
        (fun x => x.add_file_name p) := by
  unfold entityHandler.add_file
  simp only [mk_simpleFile, calculate_hash, simpleFile.get_hash,
    simpleFile.get_file_name, hf]

theorem add_file_new {h : entityHandler} {p : String}
    (hf : dict_get h.hash_dict (sha256 (fs p)) = none) :
    (h.add_file sha256 fs p).hash_dict =
      h.hash_dict ++
        [(sha256 (fs p), observedEntity.init (mk_simpleFile sha256 fs p))] := by
  unfold entityHandler.add_file
  simp only [mk_simpleFile, calculate_hash, simpleFile.get_hash,
    simpleFile.get_file_name, hf]

theorem keys_add_file_found {h : entityHandler} {p : String} {e : observedEntity}
    (hf : dict_get h.hash_dict (sha256 (fs p)) = some e) :
    (h.add_file sha256 fs p).keys = h.keys := by
  unfold entityHandler.keys
  rw [add_file_found sha256 fs hf, keys_dict_set]

theorem keys_add_file_new {h : entityHandler} {p : String}
    (hf : dict_get h.hash_dict (sha256 (fs p)) = none) :
    (h.add_file sha256 fs p).keys = h.keys ++ [sha256 (fs p)] := by
  unfold entityHandler.keys
  rw [add_file_new sha256 fs hf]
  simp

theorem add_file_mono {h : entityHandler} {k : String} {e : observedEntity}
    (hk : dict_get h.hash_dict k = some e) (p : String) :
    ∃ t, dict_get (h.add_file sha256 fs p).hash_dict k =
      some { e with files := e.files ++ t } := by
  cases hf : dict_get h.hash_dict (sha256 (fs p)) with
  | none =>
    refine ⟨[], ?_⟩
    rw [add_file_new sha256 fs hf, dict_get_append_left _ hk, List.append_nil]
  | some e0 =>
    by_cases hkk : k = sha256 (fs p)
    · refine ⟨[p], ?_⟩
      rw [add_file_found sha256 fs hf]
      subst hkk
      rw [dict_get_dict_set_self, hk]
      rfl
    · refine ⟨[], ?_⟩
      rw [add_file_found sha256 fs hf, dict_get_dict_set_ne _ _ _ _ hkk, hk,
        List.append_nil]

theorem add_file_get_digest (h : entityHandler) (p : String) :
    ∃ e, dict_get (h.add_file sha256 fs p).hash_dict (sha256 (fs p)) = some e ∧
      p ∈ e.files := by
  cases hf : dict_get h.hash_dict (sha256 (fs p)) with
  | none =>
    refine ⟨observedEntity.init (mk_simpleFile sha256 fs p), ?_, ?_⟩
    · rw [add_file_new sha256 fs hf, dict_get_append_right _ hf]
      simp [dict_get]
    · simp [observedEntity.init, mk_simpleFile, calculate_hash,
        simpleFile.get_file_name]
  | some e =>
    refine ⟨e.add_file_name p, ?_, ?_⟩
    · rw [add_file_found sha256 fs hf, dict_get_dict_set_self, hf]
      rfl
    · simp [observedEntity.add_file_name]

theorem Inv_add_file {h : entityHandler} (hInv : h.Inv sha256 fs) (p : String) :
    (h.add_file sha256 fs p).Inv sha256 fs := by
  obtain ⟨hnd, hent⟩ := hInv
  cases hf : dict_get h.hash_dict (sha256 (fs p)) with
  | none =>
    constructor
    · have hk : sha256 (fs p) ∉ h.keys := by
        have := (dict_get_eq_none_iff h.hash_dict (sha256 (fs p))).1 hf
        exact this
      rw [keys_add_file_new sha256 fs hf]
      simp [List.nodup_append, hnd, hk]
    · intro kv hkv
      rw [add_file_new sha256 fs hf] at hkv
      rcases List.mem_append.1 hkv with hmem | hmem
      · exact hent kv hmem
      · simp only [List.mem_singleton] at hmem
        subst hmem
        refine ⟨rfl, ?_⟩
        intro q hq
        simp [observedEntity.init, mk_simpleFile, calculate_hash,
          simpleFile.get_file_name] at hq
        subst hq
        rfl
  | some e =>
    constructor
    · rw [keys_add_file_found sha256 fs hf]
      exact hnd
    · intro kv hkv
      rw [add_file_found sha256 fs hf] at hkv
      rcases List.mem_map.1 hkv with ⟨kv0, hkv0, hkveq⟩
      obtain ⟨hh, hfiles⟩ := hent kv0 hkv0
      by_cases hk0 : kv0.1 = sha256 (fs p)
      · rw [if_pos hk0] at hkveq
        subst hkveq
        refine ⟨?_, ?_⟩
        · simpa [observedEntity.add_file_name] using hh
        · intro q hq
          simp only [observedEntity.add_file_name, List.mem_append,
            List.mem_singleton] at hq
          rcases hq with hq | hq
          · exact hfiles q hq
          · subst hq
            exact hk0.symm
      · rw [if_neg hk0] at hkveq
        subst hkveq
        exact ⟨hh, hfiles⟩

theorem addFiles_nil (h : entityHandler) : h.addFiles sha256 fs [] = h := rfl

theorem addFiles_cons (h : entityHandler) (p : String) (ps : List String) :
    h.addFiles sha256 fs (p :: ps) = (h.add_file sha256 fs p).addFiles sha256 fs ps := rfl

theorem Inv_init : entityHandler.init.Inv sha256 fs := by
  constructor
  · simp [entityHandler.keys, entityHandler.init]
  · intro kv hkv
    simp [entityHandler.init] at hkv

theorem Inv_addFiles {h : entityHandler} (hInv : h.Inv sha256 fs)
    (ps : List String) : (h.addFiles sha256 fs ps).Inv sha256 fs := by
  induction ps generalizing h with
  | nil => exact hInv
  | cons p ps ih =>
    rw [addFiles_cons]
    exact ih (Inv_add_file sha256 fs hInv p)

theorem addFiles_mono {h : entityHandler} {k : String} {e : observedEntity}
    (hk : dict_get h.hash_dict k = some e) (ps : List String) :
    ∃ t, dict_get (h.addFiles sha256 fs ps).hash_dict k =
      some { e with files := e.files ++ t } := by
  induction ps generalizing h e with
  | nil =>
    refine ⟨[], ?_⟩
    rw [addFiles_nil, hk, List.append_nil]
  | cons p ps ih =>
    obtain ⟨t1, h1⟩ := add_file_mono sha256 fs hk p
    obtain ⟨t2, h2⟩ := ih h1
    refine ⟨t1 ++ t2, ?_⟩
    rw [addFiles_cons, h2]
    simp [List.append_assoc]

theorem addFiles_mem (ps : List String) (p : String) (h : entityHandler)
    (hp : p ∈ ps) :
    ∃ e, dict_get (h.addFiles sha256 fs ps).hash_dict (sha256 (fs p)) = some e ∧
      p ∈ e.files := by
  revert hp
  induction ps generalizing h with
  | nil =>
    intro hp
    simp at hp
  | cons q ps ih =>
    intro hp
    rw [addFiles_cons]
    rcases List.mem_cons.1 hp with hq | hq
    · subst hq
      obtain ⟨e, he, hpe⟩ := add_file_get_digest sha256 fs h p
      obtain ⟨t, ht⟩ := addFiles_mono sha256 fs he ps
      refine ⟨_, ht, ?_⟩
      show p ∈ e.files ++ t
      exact List.mem_append.2 (Or.inl hpe)
    · exact ih _ hq

theorem keys_addFiles (ps : List String) (h : entityHandler) (k : String) :
    k ∈ (h.addFiles sha256 fs ps).keys ↔
      k ∈ h.keys ∨ ∃ p ∈ ps, k = sha256 (fs p) := by
  induction ps generalizing h with
  | nil => simp [addFiles_nil]
  | cons p ps ih =>
    rw [addFiles_cons, ih]
    have hk : k ∈ (h.add_file sha256 fs p).keys ↔
        k ∈ h.keys ∨ k = sha256 (fs p) := by
      cases hf : dict_get h.hash_dict (sha256 (fs p)) with
      | none =>
        rw [keys_add_file_new sha256 fs hf]
        simp
      | some e =>
        rw [keys_add_file_found sha256 fs hf]
        have hmem : sha256 (fs p) ∈ h.keys := dict_get_mem_keys hf
        constructor
        · exact Or.inl
        · rintro (hx | hx)
          · exact hx
          · rw [hx]
            exact hmem
    rw [hk]
    simp only [List.mem_cons]
    constructor
    · rintro ((hx | hx) | ⟨q, hq, hx⟩)
      · exact Or.inl hx
      · exact Or.inr ⟨p, Or.inl rfl, hx⟩
      · exact Or.inr ⟨q, Or.inr hq, hx⟩
    · rintro (hx | ⟨q, hq | hq, hx⟩)
      · exact Or.inl (Or.inl hx)
      · subst hq
        exact Or.inl (Or.inr hx)
      · exact Or.inr ⟨q, hq, hx⟩

end Registration

/-! Helper lemmas about `add_virustotal_result` and the query phase. -/

theorem avr_snd (e : observedEntity) (r : vtResponse) :
    (e.add_virustotal_result r).2 = respRaises r := by
  obtain ⟨results⟩ := r
  cases results with
  | none => rfl
  | some res =>
    obtain ⟨rc, t, p, d⟩ := res
    cases rc with
    | none => rfl
    | some rc =>
      by_cases hrc : rc = 1
      · subst hrc
        cases t with
        | none => rfl
        | some t =>
          cases p with
          | none => rfl
          | some p =>
            cases d with
            | none => rfl
            | some d => rfl
      · simp [observedEntity.add_virustotal_result, respRaises, hrc]

theorem avr_files (e : observedEntity) (r : vtResponse) :
    ((e.add_virustotal_result r).1).files = e.files := by
  obtain ⟨results⟩ := r
  cases results with
  | none => rfl
  | some res =>
    obtain ⟨rc, t, p, d⟩ := res
    cases rc with
    | none => rfl
    | some rc =>
      by_cases hrc : rc = 1
      · subst hrc
        cases t with
        | none => rfl
        | some t =>
          cases p with
          | none => rfl
          | some p =>
            cases d with
            | none => rfl
            | some d => rfl
      · simp [observedEntity.add_virustotal_result, hrc]

theorem avr_hash (e : observedEntity) (r : vtResponse) :
    ((e.add_virustotal_result r).1).hash = e.hash := by
  obtain ⟨results⟩ := r
  cases results with
  | none => rfl
  | some res =>
    obtain ⟨rc, t, p, d⟩ := res
    cases rc with
    | none => rfl
    | some rc =>
      by_cases hrc : rc = 1
      · subst hrc
        cases t with
        | none => rfl
        | some t =>
          cases p with
          | none => rfl
          | some p =>
            cases d with
            | none => rfl
            | some d => rfl
      · simp [observedEntity.add_virustotal_result, hrc]

theorem retrieve_go_no_raise (vt : String → vtResponse) (w : Nat)
    (d : List (String × observedEntity)) (hok : ∀ k, respRaises (vt k) = false) :
    retrieve_go vt w d =
      (d.map (fun kv => (kv.1, (kv.2.add_virustotal_result (vt kv.1)).1)),
        d.map Prod.fst, List.replicate d.length w, false) := by
  induction d with
  | nil => rfl
  | cons kv rest ih =>
    obtain ⟨k, e⟩ := kv
    have hsnd : (e.add_virustotal_result (vt k)).2 = false := by
      rw [avr_snd]
      exact hok k
    cases havr : e.add_virustotal_result (vt k) with
    | mk e1 b =>
      rw [havr] at hsnd
      subst hsnd
      simp [retrieve_go, havr, ih, List.replicate_succ]

theorem retrieve_go_keys (vt : String → vtResponse) (w : Nat)
    (d : List (String × observedEntity)) :
    ((retrieve_go vt w d).1).map Prod.fst = d.map Prod.fst := by
  induction d with
  | nil => rfl
  | cons kv rest ih =>
    obtain ⟨k, e⟩ := kv
    cases havr : e.add_virustotal_result (vt k) with
    | mk e1 b =>
      cases b with
      | true => simp [retrieve_go, havr]
      | false => simp [retrieve_go, havr, ih]

theorem retrieve_go_dict_get (vt : String → vtResponse) (w : Nat)
    (d : List (String × observedEntity)) (k : String) (e : observedEntity)
    (hk : dict_get d k = some e) :
    ∃ e2, dict_get (retrieve_go vt w d).1 k = some e2 ∧
      e2.files = e.files ∧ e2.hash = e.hash := by
  induction d generalizing e with
  | nil => simp [dict_get] at hk
  | cons kv rest ih =>
    obtain ⟨k0, e0⟩ := kv
    by_cases hkk : k0 = k
    · subst hkk
      have he0 : e0 = e := by
        simp [dict_get] at hk
        exact hk
      subst he0
      cases havr : e0.add_virustotal_result (vt k0) with
      | mk e1 b =>
        have hfiles : e1.files = e0.files := by
          have hx := avr_files e0 (vt k0)
          rw [havr] at hx
          exact hx
        have hhash : e1.hash = e0.hash := by
          have hx := avr_hash e0 (vt k0)
          rw [havr] at hx
          exact hx
        cases b with
        | true =>
          refine ⟨e1, ?_, hfiles, hhash⟩
          simp [retrieve_go, havr, dict_get]
        | false =>
          refine ⟨e1, ?_, hfiles, hhash⟩
          simp [retrieve_go, havr, dict_get]
    · have hk2 : dict_get rest k = some e := by
        simp [dict_get, hkk] at hk
        exact hk
      cases havr : e0.add_virustotal_result (vt k0) with
      | mk e1 b =>
        cases b with
        | true =>
          refine ⟨e, ?_, rfl, rfl⟩
          simp [retrieve_go, havr, dict_get, hkk]
          exact hk2
        | false =>
          obtain ⟨e2, he2, hf, hh⟩ := ih e hk2
          refine ⟨e2, ?_, hf, hh⟩
          simp [retrieve_go, havr, dict_get, hkk]
          exact he2

theorem retrieve_results_no_raise (vt : String → vtResponse) (h : entityHandler)
    (hok : ∀ k, respRaises (vt k) = false) :
    h.retrieve_virustotal_results vt =
      ({ hash_dict := h.hash_dict.map
            (fun kv => (kv.1, (kv.2.add_virustotal_result (vt kv.1)).1)) },
        h.keys,
        List.replicate h.count_entities (if h.count_entities ≤ 4 then 0 else 15),
        false) := by
  simp only [entityHandler.retrieve_virustotal_results]
  rw [retrieve_go_no_raise vt _ _ hok]
  rfl

/-! Claim theorems. -/

/-- C2: for every entity (with at least one scanner counted, so that the
real-valued division is defined), `is_malicious` returns `true` exactly
when `positives / total_scanners` is at least `0.1`, and the boundary case
of a ratio exactly equal to `0.1` yields `true`. -/
theorem claim_C2_malicious_threshold (e : observedEntity)
    (h : e.count_total_scanners ≠ 0) :
    (e.is_malicious = some true ↔
      (1 : ℚ) / 10 ≤
        (e.count_alerting_scanners : ℚ) / (e.count_total_scanners : ℚ)) ∧
    ((e.count_alerting_scanners : ℚ) / (e.count_total_scanners : ℚ) =
        (1 : ℚ) / 10 →
      e.is_malicious = some true) := by
  have hm : e.is_malicious =
      some (decide ((1 : ℚ) / 10 ≤
        (e.count_alerting_scanners : ℚ) / (e.count_total_scanners : ℚ))) := by
    unfold observedEntity.is_malicious
    rw [if_neg h]
  have hiff : e.is_malicious = some true ↔
      (1 : ℚ) / 10 ≤
        (e.count_alerting_scanners : ℚ) / (e.count_total_scanners : ℚ) := by
    rw [hm]
    simp only [Option.some.injEq, decide_eq_true_eq]
  refine ⟨hiff, fun heq => hiff.2 ?_⟩
  rw [heq]

/-- C2 witness: one alerting scanner out of ten, the exact boundary. -/
theorem claim_C2_malicious_threshold_witness :
    (entC2.is_malicious = some true ↔
      (1 : ℚ) / 10 ≤
        (entC2.count_alerting_scanners : ℚ) / (entC2.count_total_scanners : ℚ)) ∧
    ((entC2.count_alerting_scanners : ℚ) / (entC2.count_total_scanners : ℚ) =
        (1 : ℚ) / 10 →
      entC2.is_malicious = some true) :=
  claim_C2_malicious_threshold entC2 (by decide)

/-- C3 counterexample: a response whose status code indicates success but
which reports `total` equal to `0` drives `total_scanners` to `0`, after
which `is_malicious` raises a division-by-zero error (modelled as `none`).
This refutes the claim that `total_scanners` is at least `1` after every
sequence of `recordResult` calls. -/
theorem claim_C3_counterexample :
    (((observedEntity.init fileA).add_virustotal_result zeroTotalResp).1).count_total_scanners = 0 ∧
    (((observedEntity.init fileA).add_virustotal_result zeroTotalResp).1).is_malicious = none :=
  ⟨rfl, rfl⟩

/-- C3 (amended): `total_scanners` defaults to `1`, so before any
`recordResult` call `is_malicious` does not raise a division error; and
after any `recordResult` call it stays at least `1` — hence `is_malicious`
keeps returning without a division error — provided every successful
response (`response_code` equal to `1`) reports a scanner total of at
least `1`.  (Without that proviso a successful response reporting `total`
equal to `0` overwrites the guard, see the counterexample.) -/
theorem claim_C3_total_scanners_positive :
    (∀ f : simpleFile, (observedEntity.init f).count_total_scanners = 1 ∧
      ((observedEntity.init f).is_malicious).isSome = true) ∧
    (∀ (e : observedEntity) (r : vtResponse),
      1 ≤ e.count_total_scanners →
      (∀ res, r.results = some res → res.response_code = some 1 →
        ∀ t, res.total = some t → 1 ≤ t) →
      1 ≤ ((e.add_virustotal_result r).1).count_total_scanners ∧
      (((e.add_virustotal_result r).1).is_malicious).isSome = true) := by
  have hsome : ∀ e2 : observedEntity, 1 ≤ e2.count_total_scanners →
      (e2.is_malicious).isSome = true := by
    intro e2 h1
    unfold observedEntity.is_malicious
    rw [if_neg (by omega)]
    rfl
  constructor
  · intro f
    exact ⟨rfl, hsome _ (Nat.le_refl 1)⟩
  · intro e r h1 hgood
    have htot : 1 ≤ ((e.add_virustotal_result r).1).count_total_scanners := by
      obtain ⟨results⟩ := r
      cases results with
      | none =>
        simpa [observedEntity.add_virustotal_result,
          observedEntity.count_total_scanners] using h1
      | some res =>
        obtain ⟨rc, t, p, d⟩ := res
        cases rc with
        | none =>
          simpa [observedEntity.add_virustotal_result,
            observedEntity.count_total_scanners] using h1
        | some rc =>
          by_cases hrc : rc = 1
          · subst hrc
            cases t with
            | none =>
              simpa [observedEntity.add_virustotal_result,
                observedEntity.count_total_scanners] using h1
            | some t =>
              have h1t : 1 ≤ t := hgood _ rfl rfl t rfl
              cases p with
              | none =>
                simpa [observedEntity.add_virustotal_result,
                  observedEntity.count_total_scanners] using h1t
              | some p =>
                cases d with
                | none =>
                  simpa [observedEntity.add_virustotal_result,
                    observedEntity.count_total_scanners] using h1t
                | some d =>
                  simpa [observedEntity.add_virustotal_result,
                    observedEntity.count_total_scanners] using h1t
          · simpa [observedEntity.add_virustotal_result, hrc,
              observedEntity.count_total_scanners] using h1
    exact ⟨htot, hsome _ htot⟩

/-- C3 (amended) witness: the fresh entity, then an unknown-hash response
recorded on it. -/
theorem claim_C3_total_scanners_positive_witness :
    ((observedEntity.init fileA).count_total_scanners = 1 ∧
      ((observedEntity.init fileA).is_malicious).isSome = true) ∧
    (1 ≤ (((observedEntity.init fileA).add_virustotal_result unknownResp).1).count_total_scanners ∧
      ((((observedEntity.init fileA).add_virustotal_result unknownResp).1).is_malicious).isSome = true) :=
  ⟨claim_C3_total_scanners_positive.1 fileA,
    claim_C3_total_scanners_positive.2 (observedEntity.init fileA) unknownResp
      (by decide)
      (by
        intro res hres hrc t ht
        cases hres
        cases hrc)⟩

/-- C9: the raw response passed to `add_virustotal_result` is stored
before any parsing and `get_virustotal_result` afterwards returns exactly
that response, unmodified, whatever the status code (and even when the
parse raises). -/
theorem claim_C9_raw_result_roundtrip (e : observedEntity) (r : vtResponse) :
    ((e.add_virustotal_result r).1).get_virustotal_result = some r := by
  obtain ⟨results⟩ := r
  cases results with
  | none => rfl
  | some res =>
    obtain ⟨rc, t, p, d⟩ := res
    cases rc with
    | none => rfl
    | some rc =>
      by_cases hrc : rc = 1
      · subst hrc
        cases t with
        | none => rfl
        | some t =>
          cases p with
          | none => rfl
          | some p =>
            cases d with
            | none => rfl
            | some d => rfl
      · simp [observedEntity.add_virustotal_result,
          observedEntity.get_virustotal_result, hrc]

/-- C10: registering the same path twice (necessarily with the same
content) leaves a single registry entity for that digest, whose file list
holds the path twice — duplicate paths are not deduplicated. -/
theorem claim_C10_duplicate_paths (sha256 : List Nat → String)
    (fs : String → List Nat) (p : String) :
    ∃ e, dict_get ((entityHandler.init.add_file sha256 fs p).add_file sha256 fs p).hash_dict
        (sha256 (fs p)) = some e ∧
      e.files = [p, p] ∧
      ((entityHandler.init.add_file sha256 fs p).add_file sha256 fs p).count_entities = 1 := by
  have h0 : dict_get entityHandler.init.hash_dict (sha256 (fs p)) = none := rfl
  have h1 : (entityHandler.init.add_file sha256 fs p).hash_dict =
      [(sha256 (fs p), observedEntity.init (mk_simpleFile sha256 fs p))] := by
    rw [add_file_new sha256 fs h0]
    rfl
  have h2 : dict_get (entityHandler.init.add_file sha256 fs p).hash_dict
      (sha256 (fs p)) = some (observedEntity.init (mk_simpleFile sha256 fs p)) := by
    rw [h1]
    simp [dict_get]
  have h3 : ((entityHandler.init.add_file sha256 fs p).add_file sha256 fs p).hash_dict =
      dict_set_existing (entityHandler.init.add_file sha256 fs p).hash_dict
        (sha256 (fs p)) (fun e => e.add_file_name p) :=
    add_file_found sha256 fs h2
  refine ⟨(observedEntity.init (mk_simpleFile sha256 fs p)).add_file_name p, ?_, ?_, ?_⟩
  · rw [h3, dict_get_dict_set_self, h2]
    rfl
  · simp [observedEntity.init, observedEntity.add_file_name, mk_simpleFile,
      simpleFile.get_file_name]
  · simp [entityHandler.count_entities, h3, h1, dict_set_existing]

/-- C4: a response whose status code indicates a successful lookup
(`response_code` equal to `1`, with the fields present) sets the entity's
total-scanner count, positive count and scan timestamp from the response;
a response whose status code indicates no valid result leaves the counts
untouched, so on a fresh entity the defaults `total_scanners = 1` and
`positives = 0` stay in place and the entity is then reported as not
malicious. -/
theorem claim_C4_response_code_handling :
    (∀ (e : observedEntity) (t p : Nat) (d : String),
      ((e.add_virustotal_result (successResp t p d)).1).count_total_scanners = t ∧
      ((e.add_virustotal_result (successResp t p d)).1).count_alerting_scanners = p ∧
      ((e.add_virustotal_result (successResp t p d)).1).scan_date = some d ∧
      (e.add_virustotal_result (successResp t p d)).2 = false) ∧
    (∀ (e : observedEntity) (res : vtResults) (rc : Int),
      res.response_code = some rc → rc ≠ 1 →
      ((e.add_virustotal_result { results := some res }).1).count_total_scanners =
        e.count_total_scanners ∧
      ((e.add_virustotal_result { results := some res }).1).count_alerting_scanners =
        e.count_alerting_scanners ∧
      (e.add_virustotal_result { results := some res }).2 = false) ∧
    (∀ (f : simpleFile) (res : vtResults) (rc : Int),
      res.response_code = some rc → rc ≠ 1 →
      (((observedEntity.init f).add_virustotal_result { results := some res }).1).count_total_scanners = 1 ∧
      (((observedEntity.init f).add_virustotal_result { results := some res }).1).count_alerting_scanners = 0 ∧
      (((observedEntity.init f).add_virustotal_result { results := some res }).1).is_malicious = some false) := by
  refine ⟨?_, ?_, ?_⟩
  · intro e t p d
    exact ⟨rfl, rfl, rfl, rfl⟩
  · intro e res rc hres hrc
    obtain ⟨rc0, t, p, d⟩ := res
    simp at hres
    subst hres
    refine ⟨?_, ?_, ?_⟩
    · simp [observedEntity.add_virustotal_result, hrc,
        observedEntity.count_total_scanners]
    · simp [observedEntity.add_virustotal_result, hrc,
        observedEntity.count_alerting_scanners]
    · simp [observedEntity.add_virustotal_result, hrc]
  · intro f res rc hres hrc
    obtain ⟨rc0, t, p, d⟩ := res
    simp at hres
    subst hres
    set r : vtResponse :=
      { results := some { response_code := some rc, total := t, positives := p, scan_date := d } } with hrdef
    have hent : (((observedEntity.init f).add_virustotal_result r).1) =
        { observedEntity.init f with vt_result := some r } := by
      simp [observedEntity.add_virustotal_result, hrdef, hrc]
    refine ⟨?_, ?_, ?_⟩
    · rw [hent]
      rfl
    · rw [hent]
      rfl
    · rw [hent]
      unfold observedEntity.is_malicious
      norm_num [observedEntity.count_total_scanners,
        observedEntity.count_alerting_scanners, observedEntity.init,
        decide_eq_false_iff_not]

/-- C4 witness: a successful response with 3 alerting scanners out of 20,
and an unknown-hash response recorded on a fresh entity. -/
theorem claim_C4_response_code_handling_witness :
    (((entC2.add_virustotal_result (successResp 20 3 "2020-01-02")).1).count_total_scanners = 20 ∧
      ((entC2.add_virustotal_result (successResp 20 3 "2020-01-02")).1).count_alerting_scanners = 3 ∧
      ((entC2.add_virustotal_result (successResp 20 3 "2020-01-02")).1).scan_date = some "2020-01-02" ∧
      (entC2.add_virustotal_result (successResp 20 3 "2020-01-02")).2 = false) ∧
    (((observedEntity.init fileA).add_virustotal_result unknownResp).1).count_total_scanners = 1 ∧
    (((observedEntity.init fileA).add_virustotal_result unknownResp).1).count_alerting_scanners = 0 ∧
    (((observedEntity.init fileA).add_virustotal_result unknownResp).1).is_malicious = some false :=
  ⟨claim_C4_response_code_handling.1 entC2 20 3 "2020-01-02",
    claim_C4_response_code_handling.2.2 fileA
      { response_code := some 0, total := none, positives := none, scan_date := none }
      0 rfl (by decide)⟩

/-- C5 counterexample: a malformed response lacking the `results`
structure makes `recordResult` raise a `KeyError` (the raise flag is set),
refuting the claim that no malformed response raises. -/
theorem claim_C5_counterexample :
    ((observedEntity.init fileA).add_virustotal_result noResultsResp).2 = true := rfl

/-- C5 (amended): a response that carries the `results`/`response_code`
structure with a status code other than success is handled silently — the
placeholder defaults stay in place and no error is raised, with no
explicit unknown state surfaced; but a response missing the `results` key,
or missing `response_code` inside it, makes `recordResult` raise an
unhandled `KeyError`. -/
theorem claim_C5_malformed_response_handling :
    (∀ e : observedEntity,
      (e.add_virustotal_result { results := none }).2 = true) ∧
    (∀ (e : observedEntity) (res : vtResults), res.response_code = none →
      (e.add_virustotal_result { results := some res }).2 = true) ∧
    (∀ (e : observedEntity) (res : vtResults) (rc : Int),
      res.response_code = some rc → rc ≠ 1 →
      (e.add_virustotal_result { results := some res }).1 =
        { e with vt_result := some { results := some res } } ∧
      (e.add_virustotal_result { results := some res }).2 = false) := by
  refine ⟨fun e => rfl, ?_, ?_⟩
  · intro e res hres
    obtain ⟨rc0, t, p, d⟩ := res
    simp at hres
    subst hres
    rfl
  · intro e res rc hres hrc
    obtain ⟨rc0, t, p, d⟩ := res
    simp at hres
    subst hres
    exact ⟨by simp [observedEntity.add_virustotal_result, hrc],
      by simp [observedEntity.add_virustotal_result, hrc]⟩

/-- C5 (amended) witness: the missing-results response and an unknown-hash
response on the sample entity. -/
theorem claim_C5_malformed_response_handling_witness :
    ((entC2.add_virustotal_result { results := none }).2 = true) ∧
    ((entC2.add_virustotal_result unknownResp).1 =
      { entC2 with vt_result := some unknownResp } ∧
      (entC2.add_virustotal_result unknownResp).2 = false) :=
  ⟨claim_C5_malformed_response_handling.1 entC2,
    claim_C5_malformed_response_handling.2.2 entC2
      { response_code := some 0, total := none, positives := none, scan_date := none }
      0 rfl (by decide)⟩

/-- C6 counterexample: with five registered entities the query loop sleeps
15 seconds after every one of the five queries — five pauses, not the four
the claim states. -/
theorem claim_C6_counterexample :
    handler5.count_entities = 5 ∧
    (handler5.retrieve_virustotal_results benignVt).2.2.1 = [15, 15, 15, 15, 15] :=
  ⟨rfl, rfl⟩

/-- C6 (amended): the sleep interval is 0 seconds when the unique-entity
count is at most 4 and 15 seconds otherwise, and the loop sleeps once
after every query, the last included: with entity count 5 there are 5
pauses of 15 seconds, not 4 (assuming every response parses, so the loop
completes). -/
theorem claim_C6_sleep_schedule (h : entityHandler) (vt : String → vtResponse)
    (hok : ∀ k, respRaises (vt k) = false) :
    (h.retrieve_virustotal_results vt).2.2.1 =
      List.replicate h.count_entities (if h.count_entities ≤ 4 then 0 else 15) ∧
    (h.count_entities ≤ 4 →
      (h.retrieve_virustotal_results vt).2.2.1 =
        List.replicate h.count_entities 0) ∧
    (h.count_entities = 5 →
      (h.retrieve_virustotal_results vt).2.2.1 = List.replicate 5 15) := by
  have hr := retrieve_results_no_raise vt h hok
  have hs : (h.retrieve_virustotal_results vt).2.2.1 =
      List.replicate h.count_entities (if h.count_entities ≤ 4 then 0 else 15) := by
    rw [hr]
  refine ⟨hs, ?_, ?_⟩
  · intro hle
    rw [hs, if_pos hle]
  · intro h5
    rw [hs, h5]
    simp

/-- C6 (amended) witness: the five-entity handler under the unknown-hash
service. -/
theorem claim_C6_sleep_schedule_witness :
    ((handler5.retrieve_virustotal_results benignVt).2.2.1 =
      List.replicate handler5.count_entities
        (if handler5.count_entities ≤ 4 then 0 else 15)) ∧
    (handler5.count_entities ≤ 4 →
      (handler5.retrieve_virustotal_results benignVt).2.2.1 =
        List.replicate handler5.count_entities 0) ∧
    (handler5.count_entities = 5 →
      (handler5.retrieve_virustotal_results benignVt).2.2.1 =
        List.replicate 5 15) :=
  claim_C6_sleep_schedule handler5 benignVt (fun _ => rfl)

/-- C7: the registry invariant — every entity sits under its own digest
and every file path in its list hashes to that digest — holds for the
empty registry and is preserved by `add_file`; the file-path list is
append-only (each registered entity survives `add_file` with its list
extended at the tail, insertion order preserved, and its other fields
untouched); and no entity is removed by the query phase either, which
keeps every entity's file list and digest unchanged. -/
theorem claim_C7_registry_invariant (sha256 : List Nat → String)
    (fs : String → List Nat) :
    entityHandler.init.Inv sha256 fs ∧
    (∀ (h : entityHandler) (p : String), h.Inv sha256 fs →
      (h.add_file sha256 fs p).Inv sha256 fs) ∧
    (∀ (h : entityHandler) (p k : String) (e : observedEntity),
      dict_get h.hash_dict k = some e →
      ∃ t, dict_get (h.add_file sha256 fs p).hash_dict k =
        some { e with files := e.files ++ t }) ∧
    (∀ (h : entityHandler) (vt : String → vtResponse) (k : String)
      (e : observedEntity),
      dict_get h.hash_dict k = some e →
      ∃ e2, dict_get ((h.retrieve_virustotal_results vt).1).hash_dict k = some e2 ∧
        e2.files = e.files ∧ e2.hash = e.hash) := by
  refine ⟨Inv_init sha256 fs,
    fun h p hInv => Inv_add_file sha256 fs hInv p,
    fun h p k e hk => add_file_mono sha256 fs hk p, ?_⟩
  intro h vt k e hk
  have hg := retrieve_go_dict_get vt (if h.count_entities ≤ 4 then 0 else 15)
    h.hash_dict k e hk
  simpa [entityHandler.retrieve_virustotal_results] using hg

/-- C7 witness: a one-entity registry, one further registration and one
query pass. -/
theorem claim_C7_registry_invariant_witness :
    (∃ t, dict_get (handler1.add_file shaW fsW "a").hash_dict "h" =
      some { entFor "h" with files := (entFor "h").files ++ t }) ∧
    (∃ e2, dict_get ((handler1.retrieve_virustotal_results benignVt).1).hash_dict "h" =
      some e2 ∧ e2.files = (entFor "h").files ∧ e2.hash = (entFor "h").hash) :=
  ⟨(claim_C7_registry_invariant shaW fsW).2.2.1 handler1 "a" "h" (entFor "h") rfl,
    (claim_C7_registry_invariant shaW fsW).2.2.2 handler1 benignVt "h" (entFor "h") rfl⟩

/-- C8: when every response parses (so the loop completes), the query
phase issues exactly the list of registered digests, in order: one query
per unique digest, their number equal to the entity count, and each
registered digest queried exactly once however many file paths share
it. -/
theorem claim_C8_one_query_per_digest (h : entityHandler)
    (vt : String → vtResponse) (hnd : h.keys.Nodup)
    (hok : ∀ k, respRaises (vt k) = false) :
    (h.retrieve_virustotal_results vt).2.1 = h.keys ∧
    ((h.retrieve_virustotal_results vt).2.1).length = h.count_entities ∧
    (∀ (k : String) (e : observedEntity), dict_get h.hash_dict k = some e →
      ((h.retrieve_virustotal_results vt).2.1).count k = 1) := by
  have hr := retrieve_results_no_raise vt h hok
  have hq : (h.retrieve_virustotal_results vt).2.1 = h.keys := by rw [hr]
  refine ⟨hq, ?_, ?_⟩
  · rw [hq]
    simp [entityHandler.keys, entityHandler.count_entities]
  · intro k e hk
    rw [hq]
    exact List.count_eq_one_of_mem hnd (dict_get_mem_keys hk)

/-- C8 witness: the five-entity handler under the unknown-hash service. -/
theorem claim_C8_one_query_per_digest_witness :
    (handler5.retrieve_virustotal_results benignVt).2.1 = handler5.keys ∧
    ((handler5.retrieve_virustotal_results benignVt).2.1).length =
      handler5.count_entities ∧
    (∀ (k : String) (e : observedEntity),
      dict_get handler5.hash_dict k = some e →
      ((handler5.retrieve_virustotal_results benignVt).2.1).count k = 1) :=
  claim_C8_one_query_per_digest handler5 benignVt (by decide) (fun _ => rfl)

/-- C1: any two registered files with identical byte content end up in the
same registry entity whatever their paths, and — provided the digests of
the distinct contents do not collide — after registering the files the
entity count equals the number of distinct byte contents. -/
theorem claim_C1_content_dedup_and_count (sha256 : List Nat → String)
    (fs : String → List Nat) (ps : List String) :
    (∀ p1 ∈ ps, ∀ p2 ∈ ps, fs p1 = fs p2 →
      ∃ e, dict_get (entityHandler.init.addFiles sha256 fs ps).hash_dict
          (sha256 (fs p1)) = some e ∧
        p1 ∈ e.files ∧ p2 ∈ e.files) ∧
    (((ps.map fs).dedup.map sha256).Nodup →
      (entityHandler.init.addFiles sha256 fs ps).count_entities =
        (ps.map fs).dedup.length) := by
  constructor
  · intro p1 hp1 p2 hp2 hc
    obtain ⟨e1, he1, hm1⟩ := addFiles_mem sha256 fs ps p1 entityHandler.init hp1
    obtain ⟨e2, he2, hm2⟩ := addFiles_mem sha256 fs ps p2 entityHandler.init hp2
    have hk12 : sha256 (fs p1) = sha256 (fs p2) := by rw [hc]
    have he2b : dict_get (entityHandler.init.addFiles sha256 fs ps).hash_dict
        (sha256 (fs p1)) = some e2 := by
      rw [hk12]
      exact he2
    have he12 : e1 = e2 := Option.some.inj (he1.symm.trans he2b)
    refine ⟨e1, he1, hm1, ?_⟩
    rw [he12]
    exact hm2
  · intro hinj
    have hkeysnd : (entityHandler.init.addFiles sha256 fs ps).keys.Nodup :=
      (Inv_addFiles sha256 fs (Inv_init sha256 fs) ps).1
    have hmem : ∀ k, k ∈ (entityHandler.init.addFiles sha256 fs ps).keys ↔
        k ∈ (ps.map fs).dedup.map sha256 := by
      intro k
      rw [keys_addFiles sha256 fs ps entityHandler.init k]
      constructor
      · rintro (hin | ⟨p, hp, hk⟩)
        · simp [entityHandler.init, entityHandler.keys] at hin
        · exact List.mem_map.2
            ⟨fs p, List.mem_dedup.2 (List.mem_map.2 ⟨p, hp, rfl⟩), hk.symm⟩
      · intro hx
        rcases List.mem_map.1 hx with ⟨b, hb, hbk⟩
        rcases List.mem_map.1 (List.mem_dedup.1 hb) with ⟨p, hp, hbp⟩
        refine Or.inr ⟨p, hp, ?_⟩
        rw [← hbk, hbp]
    have hperm : List.Perm (entityHandler.init.addFiles sha256 fs ps).keys
        ((ps.map fs).dedup.map sha256) :=
      (List.perm_ext_iff_of_nodup hkeysnd hinj).2 hmem
    have hcnt : (entityHandler.init.addFiles sha256 fs ps).count_entities =
        (entityHandler.init.addFiles sha256 fs ps).keys.length := by
      simp [entityHandler.count_entities, entityHandler.keys]
    rw [hcnt, hperm.length_eq, List.length_map]

/-- C1 witness: three paths, two of which store identical bytes, under a
collision-free sample hash. -/
theorem claim_C1_content_dedup_and_count_witness :
    (∃ e, dict_get (entityHandler.init.addFiles shaW fsW ["a", "b", "cc"]).hash_dict
        (shaW (fsW "a")) = some e ∧
      "a" ∈ e.files ∧ "b" ∈ e.files) ∧
    (entityHandler.init.addFiles shaW fsW ["a", "b", "cc"]).count_entities =
      ((["a", "b", "cc"].map fsW).dedup).length :=
  ⟨(claim_C1_content_dedup_and_count shaW fsW ["a", "b", "cc"]).1
      "a" (by decide) "b" (by decide) (by decide),
    (claim_C1_content_dedup_and_count shaW fsW ["a", "b", "cc"]).2 (by decide)⟩
